import Mathlib

/-!
Verification development for the `fm-tool-processor` repository.

The Python modules `fm_tool_core/process_fm_tool.py`, `fm_tool_core/excel_utils.py`,
`fm_tool_core/sharepoint_utils.py` and `fm_tool_core/constants.py` are shallowly
embedded below.  External effects (filesystem, Excel COM automation, SharePoint,
SQL, wall-clock time) are modelled by explicit oracle records describing the
outcome the external system produces for each call, and each embedded function
additionally returns the list of observable events it performed, in order.
-/

namespace FMTool

/-- Values read from spreadsheet cells, compared by Python `==` / `!=`:
a string, a number, or an empty cell. -/
inductive PyVal where
  | str (s : String)
  | num (n : Int)
  | blank
deriving DecidableEq, Repr

/-- Python exceptions raised or caught by the flow. -/
inductive Exn where
  | flowError (msg : String)
  | permError
  | runtimeError (msg : String)
  | indexError
  | otherError (msg : String)
deriving DecidableEq, Repr

/-- The text `str(exc)` produces for each modelled exception
(`FlowError.__str__` returns just the message). -/
def Exn.toMsg : Exn → String
  | .flowError m => m
  | .permError => "PermissionError"
  | .runtimeError m => m
  | .indexError => "list index out of range"
  | .otherError m => m

instance {ε α : Type} [DecidableEq ε] [DecidableEq α] : DecidableEq (Except ε α) := fun x y =>
  match x, y with
  | .ok a, .ok b =>
      if h : a = b then .isTrue (by rw [h]) else .isFalse (fun hc => h (by injection hc))
  | .error a, .error b =>
      if h : a = b then .isTrue (by rw [h]) else .isFalse (fun hc => h (by injection hc))
  | .ok _, .error _ => .isFalse fun hc => Except.noConfusion hc
  | .error _, .ok _ => .isFalse fun hc => Except.noConfusion hc

/-! ### constants.py -/

def READY_NAME : String := "PY_READY_FLAG"

def READY_OK : String := "READY"

def READY_ERR : String := "ERROR"

/-- Timeout (seconds) waiting for the VBA ready flag. -/
def READY_TO : Nat := 600

/-- Seconds slept before retrying failed work. -/
def RETRY_SLEEP : Nat := 2

/-- `POLL_SLEEP = 0.25` seconds: time in `wait_ready` is modelled in
quarter-second ticks, `POLL_TICKS` ticks per second. -/
def POLL_TICKS : Nat := 4

def SCAC_VALIDATION_SHEET : String := "HOME"

/-! ### Payload rows -/

/-- A timestamp-like payload value: `datetime`, `int`/`float`, or `str`.
`datetime.timestamp()` values and numbers are modelled as integers. -/
inductive TsVal where
  | dt (ts : Int)
  | num (x : Int)
  | str (s : String)
deriving DecidableEq, Repr

/-- One payload row of `item/In_dtInputData`, restricted to the fields the
flow reads.  Optional dictionary keys are `Option`-valued. -/
structure Row where
  SCAC_OPP : String
  TOOL_TEMPLATE_FILEPATH : String
  NEW_EXCEL_FILENAME : String
  WEEK_CT : String
  PROCESSING_WEEK : String
  SCAC_VALIDATION_COLUMN : String
  SCAC_VALIDATION_ROW : String
  ORDERAREAS_VALIDATION_COLUMN : String
  ORDERAREAS_VALIDATION_ROW : String
  ORDERAREAS_VALIDATION_VALUE : PyVal
  CLIENT_DEST_SITE : String
  CLIENT_DEST_FOLDER_PATH : String
  CUSTOMER_NAME : Option String
  FM_TOOL : Option String
  QUEUE_TS : Option TsVal
  CREATED_UTC : Option TsVal
  CREATED_AT : Option TsVal
deriving DecidableEq, Repr

/-! ### `_fifo_sort` (process_fm_tool.py) -/

/-- `v.rstrip("Z")`: strip every trailing `'Z'`. -/
def stripZ (s : String) : String :=
  String.mk ((s.data.reverse.dropWhile (· = 'Z')).reverse)

/-- The local `_ts` of `_fifo_sort`.  `parseIso` models
`datetime.fromisoformat(...).timestamp()` (`none` = `ValueError`), and `now`
models the `time.time()` fallback. -/
def tsNum (parseIso : String → Option Int) (now : Int) : TsVal → Int
  | .dt t => t
  | .num x => x
  | .str s => (parseIso (stripZ s)).getD now

/-- Which of the three candidate FIFO keys was selected. -/
inductive FifoKey where
  | queueTs
  | createdUtc
  | createdAt
deriving DecidableEq, Repr

/-- Dictionary lookup of a FIFO key on a row. -/
def keyVal : FifoKey → Row → Option TsVal
  | .queueTs, r => r.QUEUE_TS
  | .createdUtc, r => r.CREATED_UTC
  | .createdAt, r => r.CREATED_AT

/-- `next((k for k in ("QUEUE_TS", "CREATED_UTC", "CREATED_AT")
if all(k in r for r in rows)), None)`. -/
def fifoKeySel (rows : List Row) : Option FifoKey :=
  if rows.all fun r => r.QUEUE_TS.isSome then some .queueTs
  else if rows.all fun r => r.CREATED_UTC.isSome then some .createdUtc
  else if rows.all fun r => r.CREATED_AT.isSome then some .createdAt
  else none

/-- `_ts(r[key])`.  The `.getD (.num 0)` default is unreachable: the key is
only selected when present in every row. -/
def rowTs (parseIso : String → Option Int) (now : Int) (k : FifoKey) (r : Row) : Int :=
  tsNum parseIso now ((keyVal k r).getD (.num 0))

/-- `_fifo_sort(rows)`: sort by the selected key (Python `sorted` is a stable
merge sort), or return the input unchanged when no key is common to all rows. -/
def fifoSort (parseIso : String → Option Int) (now : Int) (rows : List Row) : List Row :=
  match fifoKeySel rows with
  | none => rows
  | some k =>
      rows.mergeSort fun a b =>
        decide (rowTs parseIso now k a ≤ rowTs parseIso now k b)

/-! ### `copy_template` (excel_utils.py) -/

/-- Outcome of one `shutil.copy2` call: success, `PermissionError`, or some
other OS error (never a `FlowError`, which `shutil` does not raise). -/
inductive CopyRes where
  | ok
  | permError
  | osError (msg : String)
deriving DecidableEq, Repr

/-- Filesystem oracle for `copy_template`: whether the source template exists
and the outcome of the first and (if reached) second `shutil.copy2`. -/
structure CopyWorld where
  srcExists : Bool
  firstCopy : CopyRes
  secondCopy : CopyRes
deriving DecidableEq, Repr

/-- Observable filesystem events of `copy_template`. -/
inductive FsEvent where
  | mkdirParents (dir : String)
  | copyAttempt (src dst : String)
  | unlinkDst (dst : String)
deriving DecidableEq, Repr

/-- `dst_root / new_name` (`expanduser` / `resolve` modelled as identity:
the model has no home-directory references or symlinks). -/
def dstJoin (root name : String) : String :=
  if root.data.getLast? = some '/' then root ++ name else root ++ "/" ++ name

/-- `copy_template(src, dst_root, new_name, log)`: fail with `FlowError` when
the template is missing, otherwise create the destination directory, copy, and
on a first `PermissionError` unlink the destination and retry exactly once. -/
def copyTemplate (src dstRoot newName : String) (w : CopyWorld) :
    List FsEvent × Except Exn String :=
  if w.srcExists = false then
    ([], .error (.flowError ("Template not found: " ++ src)))
  else
    let dst := dstJoin dstRoot newName
    let pre := [FsEvent.mkdirParents dstRoot, FsEvent.copyAttempt src dst]
    match w.firstCopy with
    | .ok => (pre, .ok dst)
    | .osError m => (pre, .error (.otherError m))
    | .permError =>
        let evs := pre ++ [FsEvent.unlinkDst dst, FsEvent.copyAttempt src dst]
        match w.secondCopy with
        | .ok => (evs, .ok dst)
        | .permError => (evs, .error .permError)
        | .osError m => (evs, .error (.otherError m))

/-! ### `wait_ready` (excel_utils.py) -/

/-- How the `wait_ready` poll loop ended. -/
inductive WaitRes where
  | ready
  | vbaError
  | timeout
deriving DecidableEq, Repr

/-- The exception `wait_ready` raises for each loop outcome. -/
def waitExn : WaitRes → Option Exn
  | .ready => none
  | .vbaError => some (.flowError "VBA signaled ERROR")
  | .timeout => some (.flowError "Timeout waiting for READY flag")

/-- One iteration's decision: `flags i` is the flag string observed at poll
`i` and `i / POLL_TICKS` is `int(time.time() - start)` at that poll. -/
def waitStep (flag : String) (elapsed : Nat) : Option WaitRes :=
  if flag = READY_OK then some .ready
  else if flag = READY_ERR then some .vbaError
  else if READY_TO ≤ elapsed then some .timeout
  else none

/-- The poll loop of `wait_ready`, started at poll index `i`; returns the
index of the deciding poll together with the decision. -/
def waitReadyAux (flags : Nat → String) (i : Nat) : Nat × WaitRes :=
  if flags i = READY_OK then (i, .ready)
  else if flags i = READY_ERR then (i, .vbaError)
  else if h : READY_TO ≤ i / POLL_TICKS then (i, .timeout)
  else waitReadyAux flags (i + 1)
termination_by POLL_TICKS * READY_TO - i
decreasing_by
  simp only [READY_TO, POLL_TICKS] at h ⊢
  omega

/-- `wait_ready(wb, log)` over the sequence of observed flag values. -/
def waitReady (flags : Nat → String) : Nat × WaitRes :=
  waitReadyAux flags 0

/-! ### Path and URL helpers used by `process_row` -/

/-- `Path(s).stem`: final path component without its last suffix. -/
def stem (s : String) : String :=
  let base := (s.data.reverse.takeWhile (· ≠ '/')).reverse
  let afterDot := (base.reverse.takeWhile (· ≠ '.')).length
  if afterDot = base.length ∨ afterDot = 0 ∨ afterDot + 1 = base.length then String.mk base
  else String.mk (base.take (base.length - afterDot - 1))

/-- `urlparse(u).path` (query/fragment parts do not occur in the payloads
modelled here). -/
def urlPath (u : String) : String :=
  match u.splitOn "://" with
  | [] => u
  | [p] => p
  | _ :: rest =>
      let after := String.intercalate "://" rest
      match after.splitOn "/" with
      | [] => ""
      | [_] => ""
      | _ :: ps => "/" ++ String.intercalate "/" ps

/-- `s.lstrip("/")`. -/
def lstripSlash (s : String) : String := s.dropWhile (· = '/')

/-- `(Path(a) / b).as_posix()` for a non-absolute `b` (empty parts ignored). -/
def pathJoin (a b : String) : String :=
  if b = "" then a
  else if a = "" then b
  else if a.endsWith "/" then a ++ b
  else a ++ "/" ++ b

/-- The SharePoint folder `(Path(site_path) / CLIENT_DEST_FOLDER_PATH.lstrip("/")).as_posix()`. -/
def folderOf (row : Row) : String :=
  pathJoin (urlPath row.CLIENT_DEST_SITE) (lstripSlash row.CLIENT_DEST_FOLDER_PATH)

/-- `rel_file = f"{folder}/{row['NEW_EXCEL_FILENAME']}"`. -/
def relFileOf (row : Row) : String :=
  folderOf row ++ "/" ++ row.NEW_EXCEL_FILENAME

/-! ### `process_row` (process_fm_tool.py) -/

/-- Outcome of a `read_cell` call: the cell value, or an exception. -/
inductive CellRead where
  | val (v : PyVal)
  | err (e : Exn)
deriving DecidableEq, Repr

/-- External-world oracle for one `process_row` call: the outcome each
external operation would produce, in program order.  `none` means the call
returned normally; `some e` means it raised `e`. -/
structure ProcWorld where
  copyT : CopyWorld
  homeFields : Option Exn
  macroRes : Option Exn
  readOp : CellRead
  readOa : CellRead
  ctxRes : Option Exn
  fileExists : Bool
  uploadRes : Option Exn
deriving DecidableEq, Repr

/-- Observable events of one `process_row` call. -/
inductive REvent where
  | fs (e : FsEvent)
  | homeFields (wb : String)
  | macroCall (wb : String)
  | readCell (col rowIdx : String)
  | raised (e : Exn)
  | spCheck (relFile : String)
  | spUp (folder fname : String)
  | unlinkTemp (dst : String)
deriving DecidableEq, Repr

/-- How `process_row` finished: returned a Bool, or propagated an exception
raised before its `try` block. -/
inductive RowOutcome where
  | ret (b : Bool)
  | thrown (e : Exn)
deriving DecidableEq, Repr

/-- Result of one `process_row` call: events, outcome, and whether the
temporary workbook copy still exists afterwards. -/
structure RowRun where
  events : List REvent
  outcome : RowOutcome
  dstExists : Bool
deriving DecidableEq, Repr

/-- The `try` block of `process_row` (macro run, validation reads, validation
check, optional SharePoint upload), for the workbook copy at `dst`.  Returns
the events of the block and the Bool `process_row` will return: everything
raised inside the block is caught by `except Exception: return False`. -/
def tryBlock (row : Row) (upload : Bool) (dst : String) (w : ProcWorld) :
    List REvent × Bool :=
  let caught := fun (evs : List REvent) (e : Exn) => (evs ++ [REvent.raised e], false)
  let evs2 := [REvent.macroCall dst]
  match w.macroRes with
  | some e => caught evs2 e
  | none =>
    let evs3 := evs2 ++
      [REvent.readCell row.SCAC_VALIDATION_COLUMN row.SCAC_VALIDATION_ROW]
    match w.readOp with
    | .err e => caught evs3 e
    | .val opVal =>
      let evs4 := evs3 ++
        [REvent.readCell row.ORDERAREAS_VALIDATION_COLUMN row.ORDERAREAS_VALIDATION_ROW]
      match w.readOa with
      | .err e => caught evs4 e
      | .val oaVal =>
        if opVal ≠ PyVal.str row.SCAC_OPP ∨ oaVal = row.ORDERAREAS_VALIDATION_VALUE then
          caught evs4 (.flowError "Validation failed")
        else if upload then
          match w.ctxRes with
          | some e => caught evs4 e
          | none =>
            let evs5 := evs4 ++ [REvent.spCheck (relFileOf row)]
            if w.fileExists then (evs5, true)
            else
              let evs6 := evs5 ++ [REvent.spUp (folderOf row) row.NEW_EXCEL_FILENAME]
              match w.uploadRes with
              | some e => caught evs6 e
              | none => (evs6, true)
        else (evs4, true)

/-- `process_row(row, upload, root, run_id, log, bid_guid)`.

The phases before the `try` block (`copy_template`, `write_home_fields`)
propagate their exceptions; the `try` block is `tryBlock`, and the `finally`
block unlinks the temporary copy on every path through the `try`. -/
def processRow (row : Row) (upload : Bool) (root runId : String) (w : ProcWorld) : RowRun :=
  let newName := stem row.NEW_EXCEL_FILENAME ++ "_" ++ runId ++ ".xlsm"
  let copied := copyTemplate row.TOOL_TEMPLATE_FILEPATH root newName w.copyT
  let evs0 := copied.1.map REvent.fs
  match copied.2 with
  | .error e => ⟨evs0, .thrown e, false⟩
  | .ok dst =>
    let evs1 := evs0 ++ [REvent.homeFields dst]
    match w.homeFields with
    | some e => ⟨evs1, .thrown e, true⟩
    | none =>
      let t := tryBlock row upload dst w
      ⟨evs1 ++ t.1 ++ [REvent.unlinkTemp dst], .ret t.2, false⟩

/-! ### `run_flow` (process_fm_tool.py) -/

/-- Observable events of one `run_flow` call. -/
inductive FEvent where
  | status (scac state : String)
  | rowBegin (r : Row) (upload : Bool)
  | attempt (rowIdx attIdx : Nat) (outcome : RowOutcome)
  | rowEv (e : REvent)
  | sleepSec (n : Nat)
deriving DecidableEq, Repr

/-- How the per-row retry loop ended. -/
inductive LoopRes where
  | succ
  | maxed
  | thrown (e : Exn)
deriving DecidableEq, Repr

/-- The `while True` retry loop of `run_flow` for one row, written with an
explicit fuel equal to the remaining retry budget `(maxRetry - a).toNat`
(see `rowLoop` and `rowLoop_eq`: with that fuel the `0`-fuel inner branch is
unreachable, because `attempts >= max_retry` fires first). -/
def rowLoopAux (idx : Nat) (row : Row) (upload : Bool) (root runId : String)
    (w : Nat → ProcWorld) (maxRetry : Int) : Nat → Nat → List FEvent × LoopRes
  | fuel, a =>
    match (processRow row upload root runId (w (a + 1))).outcome with
    | .thrown e =>
        (FEvent.attempt idx (a + 1) (.thrown e)
            :: (processRow row upload root runId (w (a + 1))).events.map .rowEv,
          .thrown e)
    | .ret true =>
        (FEvent.attempt idx (a + 1) (.ret true)
            :: (processRow row upload root runId (w (a + 1))).events.map .rowEv,
          .succ)
    | .ret false =>
      if maxRetry ≤ ((a + 1 : Nat) : Int) then
        (FEvent.attempt idx (a + 1) (.ret false)
            :: (processRow row upload root runId (w (a + 1))).events.map .rowEv,
          .maxed)
      else
        match fuel with
        | 0 =>
            (FEvent.attempt idx (a + 1) (.ret false)
                :: (processRow row upload root runId (w (a + 1))).events.map .rowEv,
              .maxed)
        | fuel' + 1 =>
            ((FEvent.attempt idx (a + 1) (.ret false)
                :: (processRow row upload root runId (w (a + 1))).events.map .rowEv)
              ++ FEvent.sleepSec RETRY_SLEEP
                :: (rowLoopAux idx row upload root runId w maxRetry fuel' (a + 1)).1,
              (rowLoopAux idx row upload root runId w maxRetry fuel' (a + 1)).2)

/-- The `while True` retry loop of `run_flow` for one row, entered with
attempt counter `a` (the next call is attempt `a + 1`); `w att` is the
external world seen by attempt `att`. -/
def rowLoop (idx : Nat) (row : Row) (upload : Bool) (root runId : String)
    (w : Nat → ProcWorld) (maxRetry : Int) (a : Nat) : List FEvent × LoopRes :=
  rowLoopAux idx row upload root runId w maxRetry (maxRetry - (a : Int)).toNat a

/-- The `for row in rows` loop of `run_flow`: returns events, the final
`success` flag, and the exception that aborted the loop (if any). -/
def rowsLoop (upload : Bool) (root runId : String) (w : Nat → Nat → ProcWorld)
    (maxRetry : Int) : List Row → Nat → Bool → List FEvent × Bool × Option Exn
  | [], _, success => ([], success, none)
  | row :: rest, idx, success =>
    let loop := rowLoop idx row upload root runId (w idx) maxRetry 0
    let evs := FEvent.rowBegin row upload :: loop.1
    match loop.2 with
    | .succ =>
        let out := rowsLoop upload root runId w maxRetry rest (idx + 1) true
        (evs ++ out.1, out.2)
    | .maxed => (evs, success, some (.runtimeError "Max retries reached"))
    | .thrown e => (evs, success, some e)

/-- The payload dictionary after the optional `parameters` unwrapping,
restricted to the keys `run_flow` reads.  Optional keys are `Option`-valued. -/
structure Payload where
  inputData : List Row
  destFolder : String
  enableUpload : Option Bool
  maxRetry : Option Int
  bidGuid : Option String
deriving DecidableEq, Repr

/-- The dict `run_flow` returns. -/
structure ResultDict where
  workExceptionMessage : String
  workCompleted : Bool
  logPath : String
deriving DecidableEq, Repr

/-- `run_flow` either returns a dict or lets an exception escape. -/
inductive RunOutcome where
  | ret (r : ResultDict)
  | raised (e : Exn)
deriving DecidableEq, Repr

/-- Python `str.upper()` (character-wise upper-casing). -/
def pyUpper (s : String) : String := String.mk (s.data.map Char.toUpper)

/-- Python `str.strip()` (strip leading and trailing whitespace). -/
def pyStrip (s : String) : String :=
  String.mk (((s.data.dropWhile Char.isWhitespace).reverse.dropWhile Char.isWhitespace).reverse)

/-- `op_code.split("_", 1)[0].upper()`: the part before the first underscore,
upper-cased. -/
def scacOf (opCode : String) : String :=
  pyUpper (String.mk (opCode.data.takeWhile (· ≠ '_')))

/-- `_detect_payload_type(rows)`. -/
def detectPayloadType (rows : List Row) : String :=
  match rows with
  | [] => "PIT"
  | r :: _ => if pyUpper (pyStrip (r.FM_TOOL.getD "")) = "NIT" then "NIT" else "PIT"

/-- `run_flow(payload)`.  `runId` models the random `uuid4` fragment and
`logFile` the generated log path; `w rowIdx att` is the external world seen
by attempt `att` of the row at position `rowIdx` of the sorted list.

Reading `rows[0]["SCAC_OPP"]` on an empty sorted list raises an uncaught
`IndexError` before the BEGIN status call and before the `try`/`finally`;
otherwise a BEGIN status precedes the row loop and a COMPLETE status is
emitted in the `finally` block on both the success and the failure path. -/
def runFlow (p : Payload) (parseIso : String → Option Int) (now : Int)
    (w : Nat → Nat → ProcWorld) (runId logFile : String) : List FEvent × RunOutcome :=
  let rows := fifoSort parseIso now p.inputData
  let enableUpload := p.enableUpload.getD true
  let maxRetry := p.maxRetry.getD 1
  match rows with
  | [] => ([], .raised .indexError)
  | r0 :: rest =>
    let scac := scacOf r0.SCAC_OPP
    let ptype := detectPayloadType (r0 :: rest)
    let looped := rowsLoop enableUpload p.destFolder runId w maxRetry (r0 :: rest) 0 false
    (FEvent.status scac (ptype ++ "-BEGIN") :: looped.1
        ++ [FEvent.status scac (ptype ++ "-COMPLETE")],
      match looped.2.2 with
      | none => .ret ⟨"", true, logFile⟩
      | some e => .ret ⟨e.toMsg, looped.2.1, logFile⟩)

/-- The HTTP status the `RunFlow` Azure Function wrapper answers with
(`200 if result["Out_boolWorkcompleted"] else 500`). -/
def mainStatus (r : ResultDict) : Nat := if r.workCompleted then 200 else 500

/-! ### Helper observers on traces -/

/-- Is this filesystem event a `shutil.copy2` call? -/
def isCopyAttempt : FsEvent → Bool
  | .copyAttempt _ _ => true
  | _ => false

/-- Is this run event a status stored-procedure call? -/
def isStatus : FEvent → Bool
  | .status _ _ => true
  | _ => false

/-- The rows whose processing began, in trace order. -/
def rowBeginRows (evs : List FEvent) : List Row :=
  evs.filterMap fun e =>
    match e with
    | .rowBegin r _ => some r
    | _ => none

/-! ### Sample concrete inputs -/

/-- A concrete payload row (the shape used by the repository's tests). -/
def sampleRow : Row :=
  { SCAC_OPP := "HUMD_VAN"
    TOOL_TEMPLATE_FILEPATH := "/templates/t.xlsm"
    NEW_EXCEL_FILENAME := "dummy.xlsm"
    WEEK_CT := "12"
    PROCESSING_WEEK := "2025-06-14"
    SCAC_VALIDATION_COLUMN := "A"
    SCAC_VALIDATION_ROW := "1"
    ORDERAREAS_VALIDATION_COLUMN := "B"
    ORDERAREAS_VALIDATION_ROW := "1"
    ORDERAREAS_VALIDATION_VALUE := .str "Input <> Order/Area"
    CLIENT_DEST_SITE := "https://example.sharepoint.com/teams/x"
    CLIENT_DEST_FOLDER_PATH := "/NA"
    CUSTOMER_NAME := some "ACME"
    FM_TOOL := some "PIT"
    QUEUE_TS := none
    CREATED_UTC := none
    CREATED_AT := none }

/-- A world where every external call succeeds and the validation cells read
`"HUMD_VAN"` (so the ORDERAREAS cell differs from the expected sentinel). -/
def sampleWorld : ProcWorld :=
  { copyT := { srcExists := true, firstCopy := .ok, secondCopy := .ok }
    homeFields := none
    macroRes := none
    readOp := .val (.str "HUMD_VAN")
    readOa := .val (.str "HUMD_VAN")
    ctxRes := none
    fileExists := false
    uploadRes := none }

/-- A world where the Excel macro raises, so `process_row` returns `False`. -/
def sampleWorldFail : ProcWorld :=
  { sampleWorld with macroRes := some (.flowError "Timeout running macro") }

/-- A world where the ORDERAREAS validation cell reads exactly the row's
`ORDERAREAS_VALIDATION_VALUE` sentinel. -/
def sampleWorldEq : ProcWorld :=
  { sampleWorld with readOa := .val (.str "Input <> Order/Area") }

/-- The canonical event trace of `n` consecutive attempts of the per-row
retry loop starting at attempt number `start`, with `RETRY_SLEEP` sleeps
between consecutive attempts (`run att` is what attempt `att` did). -/
def attemptEvs (idx : Nat) (run : Nat → RowRun) : Nat → Nat → List FEvent
  | _, 0 => []
  | start, 1 =>
      FEvent.attempt idx start (run start).outcome :: (run start).events.map .rowEv
  | start, n + 2 =>
      (FEvent.attempt idx start (run start).outcome :: (run start).events.map .rowEv)
        ++ FEvent.sleepSec RETRY_SLEEP :: attemptEvs idx run (start + 1) (n + 1)

/-- A row with a `QUEUE_TS` timestamp. -/
def sampleRowT1 : Row := { sampleRow with QUEUE_TS := some (.num 5) }

/-- Another row with an earlier `QUEUE_TS` timestamp. -/
def sampleRowT2 : Row := { sampleRow with QUEUE_TS := some (.num 3) }

/-- A concrete single-row payload (upload disabled, one retry). -/
def samplePayload : Payload :=
  { inputData := [sampleRow]
    destFolder := "C:/work"
    enableUpload := some false
    maxRetry := some 1
    bidGuid := none }

/-! ### Claim theorems -/

/-- **C7**: `copy_template` raises `FlowError('Template not found: …')` iff the
source template does not exist; otherwise it creates the destination directory
(with parents), copies the template to `dst_root/new_name` and returns that
path, and on a first `PermissionError` it unlinks the destination and retries
the copy exactly once. -/
theorem copyTemplate_spec (src dstRoot newName : String) (w : CopyWorld) :
    ((∃ m, (copyTemplate src dstRoot newName w).2 = .error (.flowError m)) ↔
      w.srcExists = false) ∧
    (w.srcExists = false →
      copyTemplate src dstRoot newName w
        = ([], .error (.flowError ("Template not found: " ++ src)))) ∧
    (w.srcExists = true →
      (copyTemplate src dstRoot newName w).1.head? = some (.mkdirParents dstRoot) ∧
      FsEvent.copyAttempt src (dstJoin dstRoot newName) ∈ (copyTemplate src dstRoot newName w).1 ∧
      ((∃ evs, copyTemplate src dstRoot newName w = (evs, .ok (dstJoin dstRoot newName))) ↔
        (w.firstCopy = .ok ∨ (w.firstCopy = .permError ∧ w.secondCopy = .ok))) ∧
      (((copyTemplate src dstRoot newName w).1.filter isCopyAttempt).length
        = if w.firstCopy = .permError then 2 else 1) ∧
      (FsEvent.unlinkDst (dstJoin dstRoot newName) ∈ (copyTemplate src dstRoot newName w).1
        ↔ w.firstCopy = .permError)) := by
  obtain ⟨se, fc, sc⟩ := w
  cases se <;> cases fc <;> cases sc <;>
    simp [copyTemplate, isCopyAttempt]

/-- Witness for `copyTemplate_spec` at a concrete input. -/
theorem copyTemplate_spec_witness :
    copyTemplate "a.xlsm" "d" "n.xlsm" ⟨false, .ok, .ok⟩
      = ([], .error (.flowError "Template not found: a.xlsm")) :=
  (copyTemplate_spec "a.xlsm" "d" "n.xlsm" ⟨false, .ok, .ok⟩).2.1 rfl

/-- Characterisation of the `wait_ready` poll loop from an arbitrary start
index: the deciding poll is the first one at which `waitStep` decides. -/
theorem waitReadyAux_char (flags : Nat → String) (i : Nat) :
    i ≤ (waitReadyAux flags i).1 ∧
    (waitReadyAux flags i).1 ≤ max i (POLL_TICKS * READY_TO) ∧
    (∀ k, i ≤ k → k < (waitReadyAux flags i).1 →
      flags k ≠ READY_OK ∧ flags k ≠ READY_ERR ∧ k / POLL_TICKS < READY_TO) ∧
    waitStep (flags (waitReadyAux flags i).1) ((waitReadyAux flags i).1 / POLL_TICKS)
      = some (waitReadyAux flags i).2 := by
  induction i using waitReadyAux.induct flags with
  | case1 x h1 =>
      rw [waitReadyAux, if_pos h1]
      exact ⟨le_refl x, le_max_left _ _, fun k hk1 hk2 => absurd hk2 (by omega),
        by simp [waitStep, h1]⟩
  | case2 x h1 h2 =>
      rw [waitReadyAux, if_neg h1, if_pos h2]
      exact ⟨le_refl x, le_max_left _ _, fun k hk1 hk2 => absurd hk2 (by omega),
        by simp [waitStep, h2, READY_OK, READY_ERR]⟩
  | case3 x h1 h2 h3 =>
      rw [waitReadyAux, if_neg h1, if_neg h2, dif_pos h3]
      exact ⟨le_refl x, le_max_left _ _, fun k hk1 hk2 => absurd hk2 (by omega),
        by simp [waitStep, h1, h2, h3]⟩
  | case4 x h1 h2 h3 ih =>
      rw [waitReadyAux, if_neg h1, if_neg h2, dif_neg h3]
      obtain ⟨ih1, ih2, ih3, ih4⟩ := ih
      refine ⟨by omega, ?_, ?_, ih4⟩
      · simp only [POLL_TICKS, READY_TO] at h3 ih2 ⊢
        omega
      · intro k hk1 hk2
        rcases Nat.eq_or_lt_of_le hk1 with rfl | hlt
        · exact ⟨h1, h2, by omega⟩
        · exact ih3 k hlt hk2

/-- **C3**: `wait_ready` terminates for every sequence of observed flag
values: polls are separated by `POLL_SLEEP = 0.25 s` (one tick), the loop
returns as soon as the flag equals `READY`, raises
`FlowError('VBA signaled ERROR')` as soon as it equals `ERROR`, raises
`FlowError('Timeout waiting for READY flag')` once elapsed time reaches
`READY_TO = 600 s`, and never runs past the timeout budget of
`POLL_TICKS * READY_TO` polls. -/
theorem waitReady_spec (flags : Nat → String) :
    (waitReady flags).1 ≤ POLL_TICKS * READY_TO ∧
    (∀ k, k < (waitReady flags).1 →
      flags k ≠ READY_OK ∧ flags k ≠ READY_ERR ∧ k / POLL_TICKS < READY_TO) ∧
    ((waitReady flags).2 = .ready ↔ flags (waitReady flags).1 = READY_OK) ∧
    ((waitReady flags).2 = .vbaError ↔
      (flags (waitReady flags).1 ≠ READY_OK ∧ flags (waitReady flags).1 = READY_ERR)) ∧
    ((waitReady flags).2 = .timeout ↔
      (flags (waitReady flags).1 ≠ READY_OK ∧ flags (waitReady flags).1 ≠ READY_ERR ∧
        READY_TO ≤ (waitReady flags).1 / POLL_TICKS)) ∧
    waitExn .ready = none ∧
    waitExn .vbaError = some (.flowError "VBA signaled ERROR") ∧
    waitExn .timeout = some (.flowError "Timeout waiting for READY flag") := by
  obtain ⟨h0, hmax, hearlier, hstep⟩ := waitReadyAux_char flags 0
  have hb : (waitReady flags).1 ≤ POLL_TICKS * READY_TO := by
    simpa [waitReady] using hmax
  refine ⟨hb, fun k hk => hearlier k (Nat.zero_le k) (by simpa [waitReady] using hk),
    ?_, ?_, ?_, rfl, rfl, rfl⟩ <;>
  · rw [waitReady] at *
    unfold waitStep at hstep
    split_ifs at hstep with hA hB hC <;>
      simp_all <;> simp [← hstep]

/-- Witness for `waitReady_spec` at a concrete flag sequence. -/
theorem waitReady_spec_witness :
    (waitReady fun _ => "ERROR").2 = WaitRes.vbaError :=
  (waitReady_spec fun _ => "ERROR").2.2.2.1.mpr ⟨by decide, by decide⟩

/-- **C10**: whenever `process_row` returns a value (`True` or `False`), the
temporary workbook copy has been deleted: the `finally` block unlinked
`dst_path`, so no per-row copy persists after `process_row` returns. -/
theorem processRow_cleanup (row : Row) (upload : Bool) (root runId : String)
    (w : ProcWorld) (b : Bool)
    (h : (processRow row upload root runId w).outcome = .ret b) :
    (processRow row upload root runId w).dstExists = false ∧
    ∃ dst, REvent.unlinkTemp dst ∈ (processRow row upload root runId w).events := by
  revert h
  simp only [processRow]
  cases hcopy : (copyTemplate row.TOOL_TEMPLATE_FILEPATH root
      (stem row.NEW_EXCEL_FILENAME ++ "_" ++ runId ++ ".xlsm") w.copyT).2 with
  | error e =>
      intro h
      simp at h
  | ok dst =>
      cases hwhf : w.homeFields with
      | some e =>
          intro h
          simp at h
      | none =>
          intro _
          exact ⟨rfl, dst, by simp⟩

/-- Witness for `processRow_cleanup` at a concrete input. -/
theorem processRow_cleanup_witness :
    (processRow sampleRow false "C:/work" "r1" sampleWorld).dstExists = false ∧
    ∃ dst, REvent.unlinkTemp dst ∈ (processRow sampleRow false "C:/work" "r1" sampleWorld).events :=
  processRow_cleanup sampleRow false "C:/work" "r1" sampleWorld true (by decide)

/-- Validation behaviour of the `try` block: the `FlowError('Validation
failed')` is raised exactly when `op_val != op_code or oa_val ==
row['ORDERAREAS_VALIDATION_VALUE']`. -/
theorem tryBlock_validation (row : Row) (upload : Bool) (dst : String)
    (w : ProcWorld) (opVal oaVal : PyVal)
    (hmac : w.macroRes = none)
    (hop : w.readOp = .val opVal)
    (hoa : w.readOa = .val oaVal) :
    ((opVal ≠ PyVal.str row.SCAC_OPP ∨ oaVal = row.ORDERAREAS_VALIDATION_VALUE) →
      (tryBlock row upload dst w).2 = false ∧
      REvent.raised (.flowError "Validation failed") ∈ (tryBlock row upload dst w).1) ∧
    ((tryBlock row upload dst w).2 = true →
      opVal = PyVal.str row.SCAC_OPP ∧ oaVal ≠ row.ORDERAREAS_VALIDATION_VALUE) := by
  constructor
  · intro hcond
    simp only [tryBlock, hmac, hop, hoa]
    rw [if_pos hcond]
    simp
  · intro htrue
    by_cases hcond : (opVal ≠ PyVal.str row.SCAC_OPP ∨ oaVal = row.ORDERAREAS_VALIDATION_VALUE)
    · simp only [tryBlock, hmac, hop, hoa] at htrue
      rw [if_pos hcond] at htrue
      simp at htrue
    · push_neg at hcond
      exact ⟨hcond.1, hcond.2⟩

/-- **C1 counterexample**: a concrete run where the computed ORDERAREAS cell
(`"HUMD_VAN"`) differs from the row's `ORDERAREAS_VALIDATION_VALUE`
(`"Input <> Order/Area"`), yet `process_row` raises no
`FlowError('Validation failed')` and the row succeeds — refuting the claim
that a differing ORDERAREAS cell fails validation. -/
theorem processRow_validation_counterexample :
    (processRow sampleRow false "C:/work" "r1" sampleWorld).outcome = .ret true ∧
    sampleWorld.readOa = .val (.str "HUMD_VAN") ∧
    PyVal.str "HUMD_VAN" ≠ sampleRow.ORDERAREAS_VALIDATION_VALUE ∧
    REvent.raised (.flowError "Validation failed") ∉
      (processRow sampleRow false "C:/work" "r1" sampleWorld).events := by
  refine ⟨by decide, rfl, by decide, by decide⟩

/-- **C1 (amended)**: when the macro ran and both validation cells were read,
`process_row` succeeds only if the SCAC cell equals the row's `SCAC_OPP` and
the ORDERAREAS cell **differs** from the row's `ORDERAREAS_VALIDATION_VALUE`;
whenever the SCAC cell differs from `SCAC_OPP` or the ORDERAREAS cell equals
`ORDERAREAS_VALIDATION_VALUE`, a `FlowError('Validation failed',
work_completed=False)` is raised and the row is reported failed. -/
theorem processRow_validation_spec (row : Row) (upload : Bool)
    (root runId dst : String) (w : ProcWorld) (opVal oaVal : PyVal)
    (hcopy : (copyTemplate row.TOOL_TEMPLATE_FILEPATH root
        (stem row.NEW_EXCEL_FILENAME ++ "_" ++ runId ++ ".xlsm") w.copyT).2 = .ok dst)
    (hwhf : w.homeFields = none)
    (hmac : w.macroRes = none)
    (hop : w.readOp = .val opVal)
    (hoa : w.readOa = .val oaVal) :
    ((opVal ≠ PyVal.str row.SCAC_OPP ∨ oaVal = row.ORDERAREAS_VALIDATION_VALUE) →
      (processRow row upload root runId w).outcome = .ret false ∧
      REvent.raised (.flowError "Validation failed")
        ∈ (processRow row upload root runId w).events) ∧
    ((processRow row upload root runId w).outcome = .ret true →
      opVal = PyVal.str row.SCAC_OPP ∧ oaVal ≠ row.ORDERAREAS_VALIDATION_VALUE) := by
  have hv := tryBlock_validation row upload dst w opVal oaVal hmac hop hoa
  simp only [processRow, hcopy, hwhf]
  constructor
  · intro hcond
    obtain ⟨h2, h1⟩ := hv.1 hcond
    exact ⟨by simp [h2], by simp [h1]⟩
  · intro htrue
    simp only [RowOutcome.ret.injEq] at htrue
    exact hv.2 htrue

/-- Witness for `processRow_validation_spec` at a concrete input: the
ORDERAREAS cell reads the sentinel value, so the row fails. -/
theorem processRow_validation_spec_witness :
    (processRow sampleRow false "C:/work" "r1" sampleWorldEq).outcome = .ret false ∧
    REvent.raised (.flowError "Validation failed")
      ∈ (processRow sampleRow false "C:/work" "r1" sampleWorldEq).events :=
  (processRow_validation_spec sampleRow false "C:/work" "r1" "C:/work/dummy_r1.xlsm"
    sampleWorldEq (.str "HUMD_VAN") (.str "Input <> Order/Area")
    (by decide) rfl rfl rfl rfl).1 (Or.inr rfl)

/-- One-step unfolding of `rowLoop`: it is exactly the Python `while True`
loop body (process the row; on success stop; on failure either raise after
the `max_retry`-th attempt or sleep `RETRY_SLEEP` and retry). -/
theorem rowLoop_eq (idx : Nat) (row : Row) (upload : Bool) (root runId : String)
    (w : Nat → ProcWorld) (maxRetry : Int) (a : Nat) :
    rowLoop idx row upload root runId w maxRetry a =
      match (processRow row upload root runId (w (a + 1))).outcome with
      | .thrown e =>
          (FEvent.attempt idx (a + 1) (.thrown e)
              :: (processRow row upload root runId (w (a + 1))).events.map .rowEv,
            .thrown e)
      | .ret true =>
          (FEvent.attempt idx (a + 1) (.ret true)
              :: (processRow row upload root runId (w (a + 1))).events.map .rowEv,
            .succ)
      | .ret false =>
        if maxRetry ≤ ((a + 1 : Nat) : Int) then
          (FEvent.attempt idx (a + 1) (.ret false)
              :: (processRow row upload root runId (w (a + 1))).events.map .rowEv,
            .maxed)
        else
          ((FEvent.attempt idx (a + 1) (.ret false)
              :: (processRow row upload root runId (w (a + 1))).events.map .rowEv)
            ++ FEvent.sleepSec RETRY_SLEEP
              :: (rowLoop idx row upload root runId w maxRetry (a + 1)).1,
            (rowLoop idx row upload root runId w maxRetry (a + 1)).2) := by
  unfold rowLoop
  cases hf : (maxRetry - (a : Int)).toNat with
  | zero =>
      rw [rowLoopAux]
      cases houtcome : (processRow row upload root runId (w (a + 1))).outcome with
      | thrown e => rfl
      | ret b =>
          cases b
          · have hle : maxRetry ≤ ((a + 1 : Nat) : Int) := by
              push_cast
              omega
            dsimp only
            rw [if_pos hle, if_pos hle]
          · rfl
  | succ n =>
      rw [rowLoopAux]
      cases houtcome : (processRow row upload root runId (w (a + 1))).outcome with
      | thrown e => rfl
      | ret b =>
          cases b
          · dsimp only
            by_cases hle : maxRetry ≤ ((a + 1 : Nat) : Int)
            · rw [if_pos hle, if_pos hle]
            · rw [if_neg hle, if_neg hle]
              have hn : n = (maxRetry - ((a + 1 : Nat) : Int)).toNat := by
                push_cast at hle hf ⊢
                omega
              rw [hn]
          · rfl

/-- Every event of the per-row retry loop is an attempt marker (for this
row index), an inner `process_row` event, or a retry sleep. -/
theorem rowLoopAux_events_form (idx : Nat) (row : Row) (upload : Bool) (root runId : String)
    (w : Nat → ProcWorld) (maxRetry : Int) :
    ∀ fuel a e, e ∈ (rowLoopAux idx row upload root runId w maxRetry fuel a).1 →
      (∃ j o, e = FEvent.attempt idx j o) ∨ (∃ re, e = FEvent.rowEv re) ∨
        e = FEvent.sleepSec RETRY_SLEEP := by
  intro fuel
  induction fuel with
  | zero =>
      intro a e he
      rw [rowLoopAux] at he
      cases houtcome : (processRow row upload root runId (w (a + 1))).outcome with
      | thrown e2 =>
          simp only [houtcome] at he
          rcases List.mem_cons.mp he with rfl | he2
          · exact Or.inl ⟨_, _, rfl⟩
          · rcases List.mem_map.mp he2 with ⟨re, _, rfl⟩
            exact Or.inr (Or.inl ⟨re, rfl⟩)
      | ret b =>
          cases b <;> simp only [houtcome] at he
          · split at he <;>
            · rcases List.mem_cons.mp he with rfl | he2
              · exact Or.inl ⟨_, _, rfl⟩
              · rcases List.mem_map.mp he2 with ⟨re, _, rfl⟩
                exact Or.inr (Or.inl ⟨re, rfl⟩)
          · rcases List.mem_cons.mp he with rfl | he2
            · exact Or.inl ⟨_, _, rfl⟩
            · rcases List.mem_map.mp he2 with ⟨re, _, rfl⟩
              exact Or.inr (Or.inl ⟨re, rfl⟩)
  | succ n ih =>
      intro a e he
      rw [rowLoopAux] at he
      cases houtcome : (processRow row upload root runId (w (a + 1))).outcome with
      | thrown e2 =>
          simp only [houtcome] at he
          rcases List.mem_cons.mp he with rfl | he2
          · exact Or.inl ⟨_, _, rfl⟩
          · rcases List.mem_map.mp he2 with ⟨re, _, rfl⟩
            exact Or.inr (Or.inl ⟨re, rfl⟩)
      | ret b =>
          cases b <;> simp only [houtcome] at he
          · split at he
            · rcases List.mem_cons.mp he with rfl | he2
              · exact Or.inl ⟨_, _, rfl⟩
              · rcases List.mem_map.mp he2 with ⟨re, _, rfl⟩
                exact Or.inr (Or.inl ⟨re, rfl⟩)
            · rcases List.mem_append.mp he with he1 | he2
              · rcases List.mem_cons.mp he1 with rfl | he3
                · exact Or.inl ⟨_, _, rfl⟩
                · rcases List.mem_map.mp he3 with ⟨re, _, rfl⟩
                  exact Or.inr (Or.inl ⟨re, rfl⟩)
              · rcases List.mem_cons.mp he2 with rfl | he3
                · exact Or.inr (Or.inr rfl)
                · exact ih (a + 1) e he3
          · rcases List.mem_cons.mp he with rfl | he2
            · exact Or.inl ⟨_, _, rfl⟩
            · rcases List.mem_map.mp he2 with ⟨re, _, rfl⟩
              exact Or.inr (Or.inl ⟨re, rfl⟩)

/-- `rowLoop` version of `rowLoopAux_events_form`. -/
theorem rowLoop_events_form (idx : Nat) (row : Row) (upload : Bool) (root runId : String)
    (w : Nat → ProcWorld) (maxRetry : Int) (a : Nat) :
    ∀ e ∈ (rowLoop idx row upload root runId w maxRetry a).1,
      (∃ j o, e = FEvent.attempt idx j o) ∨ (∃ re, e = FEvent.rowEv re) ∨
        e = FEvent.sleepSec RETRY_SLEEP :=
  rowLoopAux_events_form idx row upload root runId w maxRetry _ a

/-- The retry loop ends in `.succ` exactly when its trace holds an attempt
that returned `True`. -/
theorem rowLoopAux_succ_iff (idx : Nat) (row : Row) (upload : Bool) (root runId : String)
    (w : Nat → ProcWorld) (maxRetry : Int) :
    ∀ fuel a, (rowLoopAux idx row upload root runId w maxRetry fuel a).2 = .succ ↔
      ∃ i j, FEvent.attempt i j (.ret true)
        ∈ (rowLoopAux idx row upload root runId w maxRetry fuel a).1 := by
  intro fuel
  induction fuel with
  | zero =>
      intro a
      rw [rowLoopAux]
      cases houtcome : (processRow row upload root runId (w (a + 1))).outcome with
      | thrown e2 => simp
      | ret b =>
          cases b
          · dsimp only
            split <;> simp
          · constructor
            · intro _
              exact ⟨idx, a + 1, List.mem_cons_self _ _⟩
            · intro _
              rfl
  | succ n ih =>
      intro a
      rw [rowLoopAux]
      cases houtcome : (processRow row upload root runId (w (a + 1))).outcome with
      | thrown e2 => simp
      | ret b =>
          cases b
          · dsimp only
            split
            · simp
            · rw [ih (a + 1)]
              constructor
              · rintro ⟨i, j, hm⟩
                exact ⟨i, j, by simp [hm]⟩
              · rintro ⟨i, j, hm⟩
                rcases List.mem_append.mp hm with he1 | he2
                · rcases List.mem_cons.mp he1 with hbad | he3
                  · simp at hbad
                  · rcases List.mem_map.mp he3 with ⟨re, _, hbad⟩
                    simp at hbad
                · rcases List.mem_cons.mp he2 with hbad | he3
                  · simp at hbad
                  · exact ⟨i, j, he3⟩
          · constructor
            · intro _
              exact ⟨idx, a + 1, List.mem_cons_self _ _⟩
            · intro _
              rfl

/-- `rowLoop` version of `rowLoopAux_succ_iff`. -/
theorem rowLoop_succ_iff (idx : Nat) (row : Row) (upload : Bool) (root runId : String)
    (w : Nat → ProcWorld) (maxRetry : Int) (a : Nat) :
    (rowLoop idx row upload root runId w maxRetry a).2 = .succ ↔
      ∃ i j, FEvent.attempt i j (.ret true)
        ∈ (rowLoop idx row upload root runId w maxRetry a).1 :=
  rowLoopAux_succ_iff idx row upload root runId w maxRetry _ a

/-- Once `success` is `True` it stays `True` through the rest of the rows. -/
theorem rowsLoop_success_mono (upload : Bool) (root runId : String)
    (w : Nat → Nat → ProcWorld) (maxRetry : Int) :
    ∀ rows idx, (rowsLoop upload root runId w maxRetry rows idx true).2.1 = true := by
  intro rows
  induction rows with
  | nil => intro idx; rfl
  | cons r rest ih =>
      intro idx
      simp only [rowsLoop]
      cases hres : (rowLoop idx r upload root runId (w idx) maxRetry 0).2 <;>
        simp [hres, ih]

/-- The final `success` flag is `True` exactly when it was already `True` or
some attempt in the trace returned `True`. -/
theorem rowsLoop_success_iff (upload : Bool) (root runId : String)
    (w : Nat → Nat → ProcWorld) (maxRetry : Int) :
    ∀ rows idx s, (rowsLoop upload root runId w maxRetry rows idx s).2.1 = true ↔
      (s = true ∨ ∃ i j, FEvent.attempt i j (.ret true)
        ∈ (rowsLoop upload root runId w maxRetry rows idx s).1) := by
  intro rows
  induction rows with
  | nil =>
      intro idx s
      simp [rowsLoop]
  | cons r rest ih =>
      intro idx s
      simp only [rowsLoop]
      cases hres : (rowLoop idx r upload root runId (w idx) maxRetry 0).2 with
      | succ =>
          have hsu := (rowLoop_succ_iff idx r upload root runId (w idx) maxRetry 0).mp hres
          obtain ⟨i, j, hmem⟩ := hsu
          have hmono := rowsLoop_success_mono upload root runId w maxRetry rest (idx + 1)
          simp only [hres]
          constructor
          · intro _
            exact Or.inr ⟨i, j, by simp [hmem]⟩
          · intro _
            exact hmono
      | maxed =>
          simp only [hres]
          constructor
          · intro hs
            exact Or.inl hs
          · rintro (hs | ⟨i, j, hmem⟩)
            · exact hs
            · rcases List.mem_cons.mp hmem with hbad | hloop
              · simp at hbad
              · have : (rowLoop idx r upload root runId (w idx) maxRetry 0).2 = .succ :=
                  (rowLoop_succ_iff idx r upload root runId (w idx) maxRetry 0).mpr ⟨i, j, hloop⟩
                rw [hres] at this
                simp at this
      | thrown e =>
          simp only [hres]
          constructor
          · intro hs
            exact Or.inl hs
          · rintro (hs | ⟨i, j, hmem⟩)
            · exact hs
            · rcases List.mem_cons.mp hmem with hbad | hloop
              · simp at hbad
              · have : (rowLoop idx r upload root runId (w idx) maxRetry 0).2 = .succ :=
                  (rowLoop_succ_iff idx r upload root runId (w idx) maxRetry 0).mpr ⟨i, j, hloop⟩
                rw [hres] at this
                simp at this

/-- When the row loop finishes a nonempty row list without an exception, the
final `success` flag is `True`. -/
theorem rowsLoop_none_success (upload : Bool) (root runId : String)
    (w : Nat → Nat → ProcWorld) (maxRetry : Int) (r : Row) (rest : List Row)
    (idx : Nat) (s : Bool)
    (h : (rowsLoop upload root runId w maxRetry (r :: rest) idx s).2.2 = none) :
    (rowsLoop upload root runId w maxRetry (r :: rest) idx s).2.1 = true := by
  simp only [rowsLoop] at h ⊢
  cases hres : (rowLoop idx r upload root runId (w idx) maxRetry 0).2 <;>
    simp only [hres] at h ⊢
  · exact rowsLoop_success_mono upload root runId w maxRetry rest (idx + 1)
  · simp at h
  · simp at h

/-- Every event of the row loop is a row-begin marker (carrying the `upload`
flag the loop was called with), an attempt marker, an inner `process_row`
event, or a retry sleep — in particular, never a status call. -/
theorem rowsLoop_trace_form (upload : Bool) (root runId : String)
    (w : Nat → Nat → ProcWorld) (maxRetry : Int) :
    ∀ rows idx s e, e ∈ (rowsLoop upload root runId w maxRetry rows idx s).1 →
      (∃ r, e = FEvent.rowBegin r upload) ∨ (∃ i j o, e = FEvent.attempt i j o) ∨
      (∃ re, e = FEvent.rowEv re) ∨ e = FEvent.sleepSec RETRY_SLEEP := by
  intro rows
  induction rows with
  | nil =>
      intro idx s e he
      simp [rowsLoop] at he
  | cons r rest ih =>
      intro idx s e he
      simp only [rowsLoop] at he
      cases hres : (rowLoop idx r upload root runId (w idx) maxRetry 0).2 <;>
        simp only [hres] at he
      · rcases List.mem_cons.mp he with rfl | he2
        · exact Or.inl ⟨r, rfl⟩
        · rcases List.mem_append.mp he2 with he3 | he4
          · rcases rowLoop_events_form idx r upload root runId (w idx) maxRetry 0 e he3 with
              ⟨j, o, rfl⟩ | ⟨re, rfl⟩ | rfl
            · exact Or.inr (Or.inl ⟨idx, j, o, rfl⟩)
            · exact Or.inr (Or.inr (Or.inl ⟨re, rfl⟩))
            · exact Or.inr (Or.inr (Or.inr rfl))
          · exact ih (idx + 1) true e he4
      · rcases List.mem_cons.mp he with rfl | he2
        · exact Or.inl ⟨r, rfl⟩
        · rcases rowLoop_events_form idx r upload root runId (w idx) maxRetry 0 e he2 with
            ⟨j, o, rfl⟩ | ⟨re, rfl⟩ | rfl
          · exact Or.inr (Or.inl ⟨idx, j, o, rfl⟩)
          · exact Or.inr (Or.inr (Or.inl ⟨re, rfl⟩))
          · exact Or.inr (Or.inr (Or.inr rfl))
      · rcases List.mem_cons.mp he with rfl | he2
        · exact Or.inl ⟨r, rfl⟩
        · rcases rowLoop_events_form idx r upload root runId (w idx) maxRetry 0 e he2 with
            ⟨j, o, rfl⟩ | ⟨re, rfl⟩ | rfl
          · exact Or.inr (Or.inl ⟨idx, j, o, rfl⟩)
          · exact Or.inr (Or.inr (Or.inl ⟨re, rfl⟩))
          · exact Or.inr (Or.inr (Or.inr rfl))

/-- The rows whose processing began form a front segment of the row list. -/
theorem rowsLoop_rowBegins (upload : Bool) (root runId : String)
    (w : Nat → Nat → ProcWorld) (maxRetry : Int) :
    ∀ rows idx s, ∃ t,
      rowBeginRows (rowsLoop upload root runId w maxRetry rows idx s).1 ++ t = rows := by
  intro rows
  induction rows with
  | nil =>
      intro idx s
      exact ⟨[], rfl⟩
  | cons r rest ih =>
      intro idx s
      have hloop : rowBeginRows (rowLoop idx r upload root runId (w idx) maxRetry 0).1 = [] := by
        rw [rowBeginRows, List.filterMap_eq_nil_iff]
        intro e he
        rcases rowLoop_events_form idx r upload root runId (w idx) maxRetry 0 e he with
          ⟨j, o, rfl⟩ | ⟨re, rfl⟩ | rfl <;> rfl
      simp only [rowsLoop]
      cases hres : (rowLoop idx r upload root runId (w idx) maxRetry 0).2 <;>
        simp only [hres]
      · obtain ⟨t, ht⟩ := ih (idx + 1) true
        refine ⟨t, ?_⟩
        simp only [rowBeginRows] at hloop ht ⊢
        simp [List.filterMap_append, hloop, ht]
      · refine ⟨rest, ?_⟩
        simp only [rowBeginRows] at hloop ⊢
        simp [hloop]
      · refine ⟨rest, ?_⟩
        simp only [rowBeginRows] at hloop ⊢
        simp [hloop]

/-- Shape of a `run_flow` execution: empty sorted input raises `IndexError`
with an empty trace; otherwise the trace is BEGIN status, row-loop events,
COMPLETE status, and the outcome is the returned dict. -/
theorem runFlow_shape (p : Payload) (parseIso : String → Option Int) (now : Int)
    (w : Nat → Nat → ProcWorld) (runId logFile : String) :
    (fifoSort parseIso now p.inputData = [] ∧
      runFlow p parseIso now w runId logFile = ([], .raised .indexError)) ∨
    ∃ r0 rest,
      fifoSort parseIso now p.inputData = r0 :: rest ∧
      runFlow p parseIso now w runId logFile =
        (FEvent.status (scacOf r0.SCAC_OPP) (detectPayloadType (r0 :: rest) ++ "-BEGIN") ::
            (rowsLoop (p.enableUpload.getD true) p.destFolder runId w (p.maxRetry.getD 1)
                (r0 :: rest) 0 false).1
          ++ [FEvent.status (scacOf r0.SCAC_OPP) (detectPayloadType (r0 :: rest) ++ "-COMPLETE")],
        match (rowsLoop (p.enableUpload.getD true) p.destFolder runId w (p.maxRetry.getD 1)
            (r0 :: rest) 0 false).2.2 with
        | none => .ret ⟨"", true, logFile⟩
        | some e => .ret ⟨e.toMsg,
            (rowsLoop (p.enableUpload.getD true) p.destFolder runId w (p.maxRetry.getD 1)
              (r0 :: rest) 0 false).2.1, logFile⟩) := by
  cases hrows : fifoSort parseIso now p.inputData with
  | nil =>
      exact Or.inl ⟨rfl, by simp only [runFlow, hrows]⟩
  | cons r0 rest =>
      exact Or.inr ⟨r0, rest, rfl, by simp only [runFlow, hrows]⟩

/-- **C4**: whenever `run_flow` returns a result dict, it has recorded status
exactly twice: a `<PIT|NIT>-BEGIN` before any row processing, and a
`<PIT|NIT>-COMPLETE` in the `finally` block at the very end, with the same
SCAC and the same PIT/NIT prefix in both calls, and no other status call in
between. -/
theorem runFlow_status_spec (p : Payload) (parseIso : String → Option Int) (now : Int)
    (w : Nat → Nat → ProcWorld) (runId logFile : String) (evs : List FEvent) (r : ResultDict)
    (h : runFlow p parseIso now w runId logFile = (evs, .ret r)) :
    ∃ scac pt mid,
      (pt = "PIT" ∨ pt = "NIT") ∧
      evs = FEvent.status scac (pt ++ "-BEGIN") :: mid ++ [FEvent.status scac (pt ++ "-COMPLETE")] ∧
      ∀ s st, FEvent.status s st ∉ mid := by
  rcases runFlow_shape p parseIso now w runId logFile with ⟨hnil, heq⟩ | ⟨r0, rest, hrows, heq⟩
  · rw [heq] at h
    simp [Prod.ext_iff] at h
  · rw [heq] at h
    injection h with h1 h2
    refine ⟨scacOf r0.SCAC_OPP, detectPayloadType (r0 :: rest),
      (rowsLoop (p.enableUpload.getD true) p.destFolder runId w (p.maxRetry.getD 1)
        (r0 :: rest) 0 false).1, ?_, h1.symm, ?_⟩
    · by_cases hn : pyUpper (pyStrip (r0.FM_TOOL.getD "")) = "NIT"
      · exact Or.inr (by simp [detectPayloadType, hn])
      · exact Or.inl (by simp [detectPayloadType, hn])
    · intro s st hmem
      rcases rowsLoop_trace_form (p.enableUpload.getD true) p.destFolder runId w
          (p.maxRetry.getD 1) (r0 :: rest) 0 false _ hmem with
        ⟨r', hr⟩ | ⟨i, j, o, hr⟩ | ⟨re, hr⟩ | hr <;> simp at hr

/-- Witness for `runFlow_status_spec` at a concrete successful run. -/
theorem runFlow_status_spec_witness :
    ∃ scac pt mid,
      (pt = "PIT" ∨ pt = "NIT") ∧
      (runFlow samplePayload (fun _ => none) 0 (fun _ _ => sampleWorld) "r1" "log").1
        = FEvent.status scac (pt ++ "-BEGIN") :: mid
            ++ [FEvent.status scac (pt ++ "-COMPLETE")] ∧
      ∀ s st, FEvent.status s st ∉ mid :=
  runFlow_status_spec samplePayload (fun _ => none) 0 (fun _ _ => sampleWorld) "r1" "log"
    (runFlow samplePayload (fun _ => none) 0 (fun _ _ => sampleWorld) "r1" "log").1
    ⟨"", true, "log"⟩ rfl

/-- **C9**: for a payload whose `item/In_dtInputData` is empty, `run_flow`
returns no dict: after sorting the empty list it raises an uncaught
`IndexError` reading the first row, before the BEGIN status call and before
the `try`/`finally`, so neither a BEGIN nor a COMPLETE status is recorded. -/
theorem runFlow_emptyInput (destFolder : String) (eU : Option Bool) (mR : Option Int)
    (bg : Option String) (parseIso : String → Option Int) (now : Int)
    (w : Nat → Nat → ProcWorld) (runId logFile : String) :
    runFlow ⟨[], destFolder, eU, mR, bg⟩ parseIso now w runId logFile
      = ([], .raised .indexError) ∧
    ∀ s st, FEvent.status s st
      ∉ (runFlow ⟨[], destFolder, eU, mR, bg⟩ parseIso now w runId logFile).1 := by
  constructor <;> simp [runFlow, fifoSort, fifoKeySel]

/-- **C5**: `_fifo_sort` preserves FIFO order: the result is always a
permutation of the input; when the first key among `QUEUE_TS`, `CREATED_UTC`,
`CREATED_AT` present in every row exists, the result is sorted ascending by
that key's `_ts` value (datetimes by timestamp, numbers as numbers, strings
via ISO-8601 parsing with trailing `'Z'` stripped); with no common key the
input order is returned; and `run_flow` processes rows in exactly this
order (the rows started form a front segment of the sorted list). -/
theorem fifoSort_spec (parseIso : String → Option Int) (now : Int) :
    (∀ rows : List Row, (fifoSort parseIso now rows).Perm rows) ∧
    (∀ rows k, fifoKeySel rows = some k →
      (fifoSort parseIso now rows).Pairwise
        (fun a b => rowTs parseIso now k a ≤ rowTs parseIso now k b)) ∧
    (∀ rows, fifoKeySel rows = none → fifoSort parseIso now rows = rows) ∧
    (∀ (p : Payload) (w : Nat → Nat → ProcWorld) (runId logFile : String),
      ∃ t, rowBeginRows (runFlow p parseIso now w runId logFile).1 ++ t
        = fifoSort parseIso now p.inputData) := by
  refine ⟨?_, ?_, ?_, ?_⟩
  · intro rows
    unfold fifoSort
    cases fifoKeySel rows with
    | none => exact List.Perm.refl rows
    | some k => exact List.mergeSort_perm rows _
  · intro rows k hk
    unfold fifoSort
    rw [hk]
    have hs := @List.sorted_mergeSort Row
      (fun a b => decide (rowTs parseIso now k a ≤ rowTs parseIso now k b))
      (fun a b c hab hbc => by
        simp only [decide_eq_true_eq] at hab hbc ⊢
        omega)
      (fun a b => by
        simp only [Bool.or_eq_true, decide_eq_true_eq]
        omega)
      rows
    exact hs.imp (by simp only [decide_eq_true_eq, imp_self, implies_true])
  · intro rows hk
    unfold fifoSort
    rw [hk]
  · intro p w runId logFile
    rcases runFlow_shape p parseIso now w runId logFile with ⟨hnil, heq⟩ | ⟨r0, rest, hrows, heq⟩
    · refine ⟨[], ?_⟩
      rw [heq, hnil]
      rfl
    · obtain ⟨t, ht⟩ := rowsLoop_rowBegins (p.enableUpload.getD true) p.destFolder runId w
        (p.maxRetry.getD 1) (r0 :: rest) 0 false
      refine ⟨t, ?_⟩
      rw [heq, hrows]
      simp only [rowBeginRows, List.filterMap_cons, List.filterMap_append] at ht ⊢
      simpa using ht

/-- Witness for `fifoSort_spec`: a two-row list with `QUEUE_TS` present is
sorted by `QUEUE_TS`. -/
theorem fifoSort_spec_witness :
    (fifoSort (fun _ => none) 0 [sampleRowT1, sampleRowT2]).Pairwise
      (fun a b => rowTs (fun _ => none) 0 .queueTs a ≤ rowTs (fun _ => none) 0 .queueTs b) :=
  (fifoSort_spec (fun _ => none) 0).2.1 [sampleRowT1, sampleRowT2] .queueTs rfl

/-- With the upload flag `False`, the `try` block performs no SharePoint
operation at all. -/
theorem tryBlock_noUpload (row : Row) (dst : String) (w : ProcWorld) :
    (∀ p, REvent.spCheck p ∉ (tryBlock row false dst w).1) ∧
    (∀ f n, REvent.spUp f n ∉ (tryBlock row false dst w).1) := by
  obtain ⟨cT, hf, mac, rop, roa, ctx, fex, ur⟩ := w
  cases mac <;> cases rop <;> cases roa <;>
    simp [tryBlock] <;> split_ifs <;> simp

/-- With the upload flag `True` and a passing validation, the `try` block
checks for the destination file and uploads only when it does not exist. -/
theorem tryBlock_upload_eq (row : Row) (dst : String) (w : ProcWorld) (opVal oaVal : PyVal)
    (hmac : w.macroRes = none) (hop : w.readOp = .val opVal) (hoa : w.readOa = .val oaVal)
    (hopEq : opVal = PyVal.str row.SCAC_OPP) (hoaNe : oaVal ≠ row.ORDERAREAS_VALIDATION_VALUE)
    (hctx : w.ctxRes = none) :
    (w.fileExists = true →
      tryBlock row true dst w =
        ([REvent.macroCall dst,
          REvent.readCell row.SCAC_VALIDATION_COLUMN row.SCAC_VALIDATION_ROW,
          REvent.readCell row.ORDERAREAS_VALIDATION_COLUMN row.ORDERAREAS_VALIDATION_ROW,
          REvent.spCheck (relFileOf row)], true)) ∧
    (w.fileExists = false → w.uploadRes = none →
      tryBlock row true dst w =
        ([REvent.macroCall dst,
          REvent.readCell row.SCAC_VALIDATION_COLUMN row.SCAC_VALIDATION_ROW,
          REvent.readCell row.ORDERAREAS_VALIDATION_COLUMN row.ORDERAREAS_VALIDATION_ROW,
          REvent.spCheck (relFileOf row),
          REvent.spUp (folderOf row) row.NEW_EXCEL_FILENAME], true)) := by
  have hcond : ¬(opVal ≠ PyVal.str row.SCAC_OPP ∨ oaVal = row.ORDERAREAS_VALIDATION_VALUE) := by
    push_neg
    exact ⟨hopEq, hoaNe⟩
  constructor
  · intro hfex
    simp [tryBlock, hmac, hop, hoa, hctx, hfex, if_neg hcond]
  · intro hfex hupl
    simp [tryBlock, hmac, hop, hoa, hctx, hfex, hupl, if_neg hcond]

/-- **C6**: SharePoint upload is optional and skip-on-exists: `process_row`
performs no SharePoint operation when its upload flag is `False`; with the
flag `True` and a row that reaches the upload phase, an existing destination
file makes it skip the upload without error (the row still succeeds), and
only when the file does not exist is the workbook uploaded to the folder
derived from `CLIENT_DEST_FOLDER_PATH` under `NEW_EXCEL_FILENAME`; `run_flow`
passes `item/In_boolEnableSharePointUpload`, defaulting to `True` when
absent. -/
theorem processRow_upload_spec :
    (∀ (row : Row) (root runId : String) (w : ProcWorld),
      (∀ p, REvent.spCheck p ∉ (processRow row false root runId w).events) ∧
      (∀ f n, REvent.spUp f n ∉ (processRow row false root runId w).events)) ∧
    (∀ (row : Row) (root runId dst : String) (w : ProcWorld) (opVal oaVal : PyVal),
      (copyTemplate row.TOOL_TEMPLATE_FILEPATH root
        (stem row.NEW_EXCEL_FILENAME ++ "_" ++ runId ++ ".xlsm") w.copyT).2 = .ok dst →
      w.homeFields = none → w.macroRes = none →
      w.readOp = .val opVal → w.readOa = .val oaVal →
      opVal = PyVal.str row.SCAC_OPP → oaVal ≠ row.ORDERAREAS_VALIDATION_VALUE →
      w.ctxRes = none →
      ((w.fileExists = true →
          (processRow row true root runId w).outcome = .ret true ∧
          REvent.spCheck (relFileOf row) ∈ (processRow row true root runId w).events ∧
          ∀ f n, REvent.spUp f n ∉ (processRow row true root runId w).events) ∧
        (w.fileExists = false → w.uploadRes = none →
          (processRow row true root runId w).outcome = .ret true ∧
          REvent.spUp (folderOf row) row.NEW_EXCEL_FILENAME
            ∈ (processRow row true root runId w).events))) ∧
    (∀ (p : Payload) (parseIso : String → Option Int) (now : Int)
        (w : Nat → Nat → ProcWorld) (runId logFile : String) (r : Row) (u : Bool),
      FEvent.rowBegin r u ∈ (runFlow p parseIso now w runId logFile).1 →
      u = p.enableUpload.getD true) := by
  refine ⟨?_, ?_, ?_⟩
  · intro row root runId w
    have ht := tryBlock_noUpload row
    constructor
    · intro p
      simp only [processRow]
      cases hcopy : (copyTemplate row.TOOL_TEMPLATE_FILEPATH root
          (stem row.NEW_EXCEL_FILENAME ++ "_" ++ runId ++ ".xlsm") w.copyT).2 with
      | error e => simp
      | ok dst =>
          cases hwhf : w.homeFields with
          | some e => simp
          | none => simp [List.mem_append, (ht dst w).1 p]
    · intro f n
      simp only [processRow]
      cases hcopy : (copyTemplate row.TOOL_TEMPLATE_FILEPATH root
          (stem row.NEW_EXCEL_FILENAME ++ "_" ++ runId ++ ".xlsm") w.copyT).2 with
      | error e => simp
      | ok dst =>
          cases hwhf : w.homeFields with
          | some e => simp
          | none => simp [List.mem_append, (ht dst w).2 f n]
  · intro row root runId dst w opVal oaVal hcopy hwhf hmac hop hoa hopEq hoaNe hctx
    have hup := tryBlock_upload_eq row dst w opVal oaVal hmac hop hoa hopEq hoaNe hctx
    constructor
    · intro hfex
      have heq := hup.1 hfex
      simp only [processRow, hcopy, hwhf, heq]
      refine ⟨trivial, by simp, ?_⟩
      intro f n
      simp
    · intro hfex hupl
      have heq := hup.2 hfex hupl
      simp only [processRow, hcopy, hwhf, heq]
      exact ⟨trivial, by simp⟩
  · intro p parseIso now w runId logFile r u hmem
    rcases runFlow_shape p parseIso now w runId logFile with ⟨hnil, heq⟩ | ⟨r0, rest, hrows, heq⟩
    · rw [heq] at hmem
      simp at hmem
    · rw [heq] at hmem
      rcases List.mem_cons.mp hmem with hbad | hmem2
      · simp at hbad
      · rcases List.mem_append.mp hmem2 with hloop | hlast
        · rcases rowsLoop_trace_form (p.enableUpload.getD true) p.destFolder runId w
              (p.maxRetry.getD 1) (r0 :: rest) 0 false _ hloop with
            ⟨r', hr⟩ | ⟨i, j, o, hr⟩ | ⟨re, hr⟩ | hr <;>
            simp_all
        · simp at hlast

/-- Witness for `processRow_upload_spec`: with upload enabled and the file
absent, the sample row is uploaded and succeeds. -/
theorem processRow_upload_spec_witness :
    (processRow sampleRow true "C:/work" "r1" sampleWorld).outcome = .ret true ∧
    REvent.spUp (folderOf sampleRow) sampleRow.NEW_EXCEL_FILENAME
      ∈ (processRow sampleRow true "C:/work" "r1" sampleWorld).events :=
  ((processRow_upload_spec.2.1 sampleRow "C:/work" "r1" "C:/work/dummy_r1.xlsm"
      sampleWorld (.str "HUMD_VAN") (.str "HUMD_VAN")
      (by decide) rfl rfl rfl rfl rfl (by decide) rfl).2) rfl rfl

/-- **C8**: when row processing raises, `run_flow` catches it and returns a
dict whose `Out_strWorkExceptionMessage` is `str(exception)` and whose
`Out_boolWorkcompleted` is `True` iff some earlier `process_row` call
returned `True` (so a late `'Max retries reached'` after an early success
still reports `True`, and the HTTP wrapper answers 200 exactly when
`Out_boolWorkcompleted` is `True`); a fully successful run returns an empty
message and `True`. -/
theorem runFlow_result_spec (p : Payload) (parseIso : String → Option Int) (now : Int)
    (w : Nat → Nat → ProcWorld) (runId logFile : String) (evs : List FEvent) (r : ResultDict)
    (h : runFlow p parseIso now w runId logFile = (evs, .ret r)) :
    r.logPath = logFile ∧
    (r.workCompleted = true ↔ ∃ i j, FEvent.attempt i j (.ret true) ∈ evs) ∧
    (mainStatus r = 200 ↔ r.workCompleted = true) ∧
    (∀ r0 rest, fifoSort parseIso now p.inputData = r0 :: rest →
      (∀ evs2 success e,
        rowsLoop (p.enableUpload.getD true) p.destFolder runId w (p.maxRetry.getD 1)
          (r0 :: rest) 0 false = (evs2, success, some e) →
        r.workExceptionMessage = e.toMsg ∧ r.workCompleted = success) ∧
      (∀ evs2 success,
        rowsLoop (p.enableUpload.getD true) p.destFolder runId w (p.maxRetry.getD 1)
          (r0 :: rest) 0 false = (evs2, success, none) →
        r.workExceptionMessage = "" ∧ r.workCompleted = true)) := by
  rcases runFlow_shape p parseIso now w runId logFile with ⟨hnil, heq⟩ | ⟨r0, rest, hrows, heq⟩
  · rw [heq] at h
    simp [Prod.ext_iff] at h
  · rw [heq] at h
    injection h with h1 h2
    have hmem_iff : ∀ i j,
        (FEvent.attempt i j (.ret true) ∈ evs ↔
          FEvent.attempt i j (.ret true)
            ∈ (rowsLoop (p.enableUpload.getD true) p.destFolder runId w (p.maxRetry.getD 1)
                (r0 :: rest) 0 false).1) := by
      intro i j
      rw [← h1]
      simp
    cases hL : (rowsLoop (p.enableUpload.getD true) p.destFolder runId w (p.maxRetry.getD 1)
        (r0 :: rest) 0 false).2.2 with
    | none =>
        rw [hL] at h2
        injection h2 with h3
        subst h3
        refine ⟨rfl, ?_, by simp [mainStatus], ?_⟩
        · constructor
          · intro _
            have hsucc := rowsLoop_none_success (p.enableUpload.getD true) p.destFolder runId w
              (p.maxRetry.getD 1) r0 rest 0 false hL
            rcases (rowsLoop_success_iff (p.enableUpload.getD true) p.destFolder runId w
                (p.maxRetry.getD 1) (r0 :: rest) 0 false).mp hsucc with hbad | ⟨i, j, hm⟩
            · simp at hbad
            · exact ⟨i, j, (hmem_iff i j).mpr hm⟩
          · intro _
            rfl
        · intro r0' rest' hrows'
          have hinj := hrows.symm.trans hrows'
          injection hinj with hr0 hrest
          subst hr0
          subst hrest
          constructor
          · intro evs2 success e hRL
            rw [hRL] at hL
            simp at hL
          · intro evs2 success hRL
            exact ⟨rfl, rfl⟩
    | some e =>
        rw [hL] at h2
        injection h2 with h3
        subst h3
        refine ⟨rfl, ?_, ?_, ?_⟩
        · have hiff := rowsLoop_success_iff (p.enableUpload.getD true) p.destFolder runId w
            (p.maxRetry.getD 1) (r0 :: rest) 0 false
          constructor
          · intro hc
            rcases hiff.mp hc with hbad | ⟨i, j, hm⟩
            · simp at hbad
            · exact ⟨i, j, (hmem_iff i j).mpr hm⟩
          · rintro ⟨i, j, hm⟩
            exact hiff.mpr (Or.inr ⟨i, j, (hmem_iff i j).mp hm⟩)
        · cases hc : (rowsLoop (p.enableUpload.getD true) p.destFolder runId w (p.maxRetry.getD 1)
              (r0 :: rest) 0 false).2.1 <;> simp [mainStatus, hc]
        · intro r0' rest' hrows'
          have hinj := hrows.symm.trans hrows'
          injection hinj with hr0 hrest
          subst hr0
          subst hrest
          constructor
          · intro evs2 success e2 hRL
            rw [hRL] at hL ⊢
            injection hL with he
            subst he
            exact ⟨rfl, rfl⟩
          · intro evs2 success hRL
            rw [hRL] at hL
            simp at hL

/-- Witness for `runFlow_result_spec`: the sample run succeeds, so the HTTP
wrapper answers 200. -/
theorem runFlow_result_spec_witness :
    mainStatus ⟨"", true, "log"⟩ = 200 :=
  (runFlow_result_spec samplePayload (fun _ => none) 0 (fun _ _ => sampleWorld) "r1" "log"
    (runFlow samplePayload (fun _ => none) 0 (fun _ _ => sampleWorld) "r1" "log").1
    ⟨"", true, "log"⟩ rfl).2.2.1.mpr rfl

/-- Characterisation of the retry loop entered at attempt counter `a < maxRetry`
when `process_row` never raises: some `n ≥ 1` further attempts run, the trace
is the canonical attempt/sleep interleaving, all but the last fail, and the
loop ends `.succ` on a final success or `.maxed` exactly at the retry budget. -/
theorem rowLoop_char (idx : Nat) (row : Row) (upload : Bool) (root runId : String)
    (w : Nat → ProcWorld) (maxRetry : Int) (f : Nat → Bool)
    (hf : ∀ att, (processRow row upload root runId (w att)).outcome = .ret (f att)) :
    ∀ a : Nat, (a : Int) < maxRetry →
      ∃ n : Nat, 1 ≤ n ∧ ((a + n : Nat) : Int) ≤ maxRetry ∧
        rowLoop idx row upload root runId w maxRetry a
          = (attemptEvs idx (fun att => processRow row upload root runId (w att)) (a + 1) n,
             if f (a + n) then .succ else .maxed) ∧
        (∀ k, a + 1 ≤ k → k < a + n → f k = false) ∧
        (f (a + n) = false → ((a + n : Nat) : Int) = maxRetry) := by
  suffices H : ∀ (m a : Nat), (maxRetry - (a : Int)).toNat = m → (a : Int) < maxRetry →
      ∃ n : Nat, 1 ≤ n ∧ ((a + n : Nat) : Int) ≤ maxRetry ∧
        rowLoop idx row upload root runId w maxRetry a
          = (attemptEvs idx (fun att => processRow row upload root runId (w att)) (a + 1) n,
             if f (a + n) then .succ else .maxed) ∧
        (∀ k, a + 1 ≤ k → k < a + n → f k = false) ∧
        (f (a + n) = false → ((a + n : Nat) : Int) = maxRetry) by
    intro a ha
    exact H _ a rfl ha
  intro m
  induction m using Nat.strong_induction_on with
  | _ m ih =>
      intro a hm ha
      rw [rowLoop_eq]
      rw [hf (a + 1)]
      cases hfa : f (a + 1)
      · dsimp only
        by_cases hle : maxRetry ≤ ((a + 1 : Nat) : Int)
        · rw [if_pos hle]
          refine ⟨1, le_refl 1, by push_cast at hle ⊢; omega, ?_, ?_, ?_⟩
          · simp [attemptEvs, hf (a + 1), hfa]
          · intro k hk1 hk2
            omega
          · intro _
            push_cast at hle ha ⊢
            omega
        · rw [if_neg hle]
          have hm' : (maxRetry - ((a + 1 : Nat) : Int)).toNat < m := by
            push_cast at hle ha hm ⊢
            omega
          have ha' : ((a + 1 : Nat) : Int) < maxRetry := by
            push_cast at hle ⊢
            omega
          obtain ⟨n', hn1, hn2, heq, hprev, hmaxed⟩ := ih _ hm' (a + 1) rfl ha'
          obtain ⟨n'', rfl⟩ : ∃ n'', n' = n'' + 1 := ⟨n' - 1, by omega⟩
          have hadd : a + (n'' + 1 + 1) = (a + 1) + (n'' + 1) := by omega
          refine ⟨n'' + 1 + 1, by omega, by push_cast at hn2 ⊢; omega, ?_, ?_, ?_⟩
          · rw [heq, hadd]
            simp [attemptEvs, hf (a + 1), hfa]
          · intro k hk1 hk2
            rcases Nat.eq_or_lt_of_le hk1 with rfl | hlt
            · exact hfa
            · exact hprev k (by omega) (by omega)
          · intro hfn
            rw [hadd] at hfn
            have := hmaxed hfn
            push_cast at this ⊢
            omega
      · dsimp only
        refine ⟨1, le_refl 1, by push_cast at ha ⊢; omega, ?_, ?_, ?_⟩
        · simp [attemptEvs, hf (a + 1), hfa]
        · intro k hk1 hk2
          omega
        · intro hbad
          rw [hfa] at hbad
          cases hbad

/-- **C2**: with `max_retry ≥ 1` and `process_row` never raising, the per-row
retry loop calls `process_row` at most `max_retry` times, sleeps the fixed
`RETRY_SLEEP = 2` seconds between consecutive attempts at the same row, stops
at the first attempt returning `True`, and after the `max_retry`-th
consecutive failed attempt the loop raises
`RuntimeError('Max retries reached')`, abandoning all remaining rows. -/
theorem runFlow_retry_spec (idx : Nat) (row : Row) (upload : Bool) (root runId : String)
    (w : Nat → ProcWorld) (maxRetry : Int) (f : Nat → Bool)
    (hmr : 1 ≤ maxRetry)
    (hf : ∀ att, (processRow row upload root runId (w att)).outcome = .ret (f att)) :
    RETRY_SLEEP = 2 ∧
    ∃ n : Nat, 1 ≤ n ∧ (n : Int) ≤ maxRetry ∧
      rowLoop idx row upload root runId w maxRetry 0
        = (attemptEvs idx (fun att => processRow row upload root runId (w att)) 1 n,
           if f n then .succ else .maxed) ∧
      (∀ k, 1 ≤ k → k < n → f k = false) ∧
      (f n = false → (n : Int) = maxRetry) ∧
      (f n = false → ∀ (rest : List Row) (s : Bool) (w2 : Nat → Nat → ProcWorld),
        w2 idx = w →
        rowsLoop upload root runId w2 maxRetry (row :: rest) idx s
          = (FEvent.rowBegin row upload
              :: attemptEvs idx (fun att => processRow row upload root runId (w att)) 1 n,
             s, some (.runtimeError "Max retries reached"))) := by
  obtain ⟨n, hn1, hn2, heq, hprev, hmaxed⟩ :=
    rowLoop_char idx row upload root runId w maxRetry f hf 0 (by omega)
  simp only [Nat.zero_add] at hn2 heq hprev hmaxed
  refine ⟨rfl, n, hn1, hn2, heq, hprev, hmaxed, ?_⟩
  intro hfn rest s w2 hw2
  have heqm : rowLoop idx row upload root runId w maxRetry 0
      = (attemptEvs idx (fun att => processRow row upload root runId (w att)) 1 n, .maxed) := by
    rw [heq, hfn]
    rfl
  simp only [rowsLoop, hw2, heqm]

/-- Witness for `runFlow_retry_spec` at a concrete always-failing world with
`max_retry = 2`. -/
theorem runFlow_retry_spec_witness :
    RETRY_SLEEP = 2 ∧
    ∃ n : Nat, 1 ≤ n ∧ (n : Int) ≤ 2 ∧
      rowLoop 0 sampleRow false "C:/work" "r1" (fun _ => sampleWorldFail) 2 0
        = (attemptEvs 0 (fun att => processRow sampleRow false "C:/work" "r1"
            ((fun _ => sampleWorldFail) att)) 1 n,
           if (fun _ => false : Nat → Bool) n then .succ else .maxed) ∧
      (∀ k, 1 ≤ k → k < n → (fun _ => false : Nat → Bool) k = false) ∧
      ((fun _ => false : Nat → Bool) n = false → (n : Int) = 2) ∧
      ((fun _ => false : Nat → Bool) n = false →
        ∀ (rest : List Row) (s : Bool) (w2 : Nat → Nat → ProcWorld),
        w2 0 = (fun _ => sampleWorldFail) →
        rowsLoop false "C:/work" "r1" w2 2 (sampleRow :: rest) 0 s
          = (FEvent.rowBegin sampleRow false
              :: attemptEvs 0 (fun att => processRow sampleRow false "C:/work" "r1"
                  ((fun _ => sampleWorldFail) att)) 1 n,
             s, some (.runtimeError "Max retries reached"))) :=
  runFlow_retry_spec 0 sampleRow false "C:/work" "r1" (fun _ => sampleWorldFail) 2
    (fun _ => false) (by omega) (fun _ => rfl)

end FMTool
